import Mathlib

/-!
Verification of the frame decode-and-render pipeline of `dicom-imaging-webgpu`.

The definitions below are shallow embeddings of the TypeScript sources:
`src/FrameDecoder.ts`, `src/shaders.ts`, `src/utils.ts`, `src/PipelineCache.ts`,
the generic `Cache` class and the top-level `render`/`createImageFrame`
orchestration module.  Machine numbers are modelled as `Nat`/`Int` for byte and
integer sample values and as `Rat` for the IEEE-float display-mapping
arithmetic (the embedded formulas are exact where the source computes with
f32).  Fallible code returns `Except String`.
-/

/-- The `ImageFrameType` record of `types.ts`, with `pixelData` as the list of
sample values held by the typed array (8-bit unsigned, 16-bit unsigned or
16-bit signed, hence `Int`). -/
structure ImageFrameType where
  samplesPerPixel : Nat
  photometricInterpretation : String
  planarConfiguration : Nat
  rows : Nat
  columns : Nat
  bitsAllocated : Nat
  bitsStored : Nat
  highBit : Nat
  rescaleIntercept : Rat
  rescaleSlope : Rat
  pixelRepresentation : Nat
  minPixelValue : Int
  maxPixelValue : Int
  windowCenter : Rat
  windowWidth : Rat
  pixelData : List Int
deriving Repr

/-- JavaScript `x || d` on an optional number: `undefined` and `0` are falsy
and give the default. -/
def jsOrNat (o : Option Nat) (d : Nat) : Nat :=
  match o with
  | some v => if v = 0 then d else v
  | none => d

/-- JavaScript `x || d` on an optional float value (modelled exactly). -/
def jsOrRat (o : Option Rat) (d : Rat) : Rat :=
  match o with
  | some v => if v = 0 then d else v
  | none => d

/-! ## FrameDecoder.decodeFrameData (src/FrameDecoder.ts)

The uncompressed transfer-syntax branches of `decodeFrameData`.  The
compressed branches delegate to the opaque WebAssembly codec backend and are
outside this model's scope.  The transfer-syntax identifiers come from the
(absent) `Constants.ts`; the dispatch categories are those of the spec's
decode table. -/

/-- Uncompressed transfer-syntax categories handled inline by
`decodeFrameData` (spec section 4.2). -/
inductive TsKind where
  | implicitVRLittleEndian
  | explicitVRLittleEndian
  | deflatedExplicitVRLittleEndian
  | explicitVRBigEndian
deriving DecidableEq, Repr

/-- The in-place 2-byte swap loop of the big-endian branch
(`FrameDecoder.ts` lines 112-116).  The loop steps `i` by 2; on an
odd-length buffer the final iteration reads `buf[i+1] = undefined`, stores it
as `0` into `buf[i]`, and the write of the held byte to `buf[i+1]` is an
ignored out-of-bounds store. -/
def swapBytes : List Nat → List Nat
  | a :: b :: rest => b :: a :: swapBytes rest
  | [_] => [0]
  | [] => []

/-- The function `FrameDecoder.decodeFrameData` restricted to the uncompressed transfer
syntaxes (`FrameDecoder.ts` lines 92-118): little-endian variants pass the
buffer through; explicit-VR big-endian copies the buffer and swaps 2-byte
units exactly when `8 < bitsAllocated ≤ 16`. -/
def decodeFrameData (ts : TsKind) (bitsAllocated : Nat)
    (encodedBuffer : Option (List Nat)) : Except String (List Nat) :=
  match encodedBuffer with
  | none => Except.error ("No encoded buffer provided")
  | some buf =>
    match ts with
    | TsKind.implicitVRLittleEndian => Except.ok buf
    | TsKind.explicitVRLittleEndian => Except.ok buf
    | TsKind.deflatedExplicitVRLittleEndian => Except.ok buf
    | TsKind.explicitVRBigEndian =>
      if 8 < bitsAllocated ∧ bitsAllocated ≤ 16 then Except.ok (swapBytes buf)
      else Except.ok buf

/-! ## getUncompressedImageFrame (main module)

Native (uncompressed) frame extraction.  `data` is the container's byte
array; attribute values of `0` model both a stored zero and a missing
attribute (both are falsy in the source's guard).  `ArrayBuffer.slice`
clamps its end index, which `drop`/`take` reproduce. -/

/-- The function `getUncompressedImageFrame` from the top-level module: computes the frame
offset, throws when the offset reaches past the data, and otherwise returns
the (possibly clamped) slice. -/
def getUncompressedImageFrame (data : List Nat) (pixelDataOffset : Nat)
    (rows columns samplesPerPixel bitsAllocated frameIndex : Nat) :
    Except String (List Nat) :=
  if bitsAllocated = 0 ∨ rows = 0 ∨ columns = 0 ∨ samplesPerPixel = 0 then
    Except.error ("Missing required attributes")
  else
    let pixelsPerFrame := rows * columns * samplesPerPixel
    if bitsAllocated = 8 then
      let frameOffset := pixelDataOffset + frameIndex * pixelsPerFrame
      if frameOffset ≥ data.length then Except.error ("Frame exceeds size of pixel data")
      else Except.ok ((data.drop frameOffset).take pixelsPerFrame)
    else if bitsAllocated = 16 then
      let frameOffset := pixelDataOffset + frameIndex * pixelsPerFrame * 2
      if frameOffset ≥ data.length then Except.error ("Frame exceeds size of pixel data")
      else Except.ok ((data.drop frameOffset).take (pixelsPerFrame * 2))
    else Except.error ("Unsupported pixel format")

/-! ## Image frame assembly (utils.ts and the main module's createImageFrame) -/

/-- Combines consecutive byte pairs little-endian, as the `Uint16Array` view
over the decoded byte buffer does; a trailing unpaired byte is not part of
the view (the view length is the floor of `byteLength / 2`). -/
def toUint16List : List Nat → List Int
  | b0 :: b1 :: rest => (b0 + 256 * b1 : Nat) :: toUint16List rest
  | [_] => []
  | [] => []

/-- Two's-complement reinterpretation of a 16-bit unsigned value, as
`new Int16Array(u16)` performs element-wise. -/
def toInt16 (v : Int) : Int := if v ≥ 32768 then v - 65536 else v

/-- The function `toTypedPixelData` (utils.ts lines 5-35): 8-bit passthrough when
`bitsStored = 8`, `highBit = 7` and `bitsAllocated = 8`; otherwise, for
`bitsAllocated ≤ 16`, a 16-bit view, signed when `pixelRepresentation = 1`;
anything else throws. -/
def toTypedPixelData (pixelData : List Nat) (pixelRepresentation bitsAllocated bitsStored highBit : Nat) :
    Except String (List Int) :=
  if bitsStored = 8 ∧ highBit = 7 ∧ bitsAllocated = 8 then
    Except.ok (pixelData.map Int.ofNat)
  else if bitsAllocated ≤ 16 then
    if pixelRepresentation = 0 then Except.ok (toUint16List pixelData)
    else Except.ok ((toUint16List pixelData).map toInt16)
  else Except.error ("Unsupported pixel data value for bits stored")

/-- One step of the `calculateMinMaxPixelValues` scan loop
(utils.ts lines 66-73). -/
def minMaxStep (mm : Int × Int) (v : Int) : Int × Int :=
  if v < mm.1 then (v, mm.2) else if v > mm.2 then (mm.1, v) else mm

/-- The function `calculateMinMaxPixelValues` (utils.ts lines 59-76): a single linear scan
seeded with the first element. -/
def calculateMinMaxPixelValues (pixelData : List Int) : Int × Int :=
  pixelData.foldl minMaxStep (pixelData.headD 0, pixelData.headD 0)

/-- The Image Frame Assembler: the post-parse portion of `createImageFrame`
in the main module.  Dataset attribute lookups are modelled as `Option`
inputs (with JavaScript falsy-default resolution via `jsOrNat`/`jsOrRat`);
the decode step's output buffer and possibly revised photometric
interpretation are inputs. -/
def createImageFrame (rows columns : Nat)
    (bitsAllocatedOpt bitsStoredOpt pixelRepresentationOpt highBitOpt samplesPerPixelOpt planarConfigurationOpt : Option Nat)
    (photometricInterpretationOpt : Option String)
    (rescaleInterceptOpt rescaleSlopeOpt windowCenterOpt windowWidthOpt : Option Rat)
    (decodedBuffer : List Nat) (decodedPhotometricInterpretation : String) :
    Except String ImageFrameType :=
  if rows = 0 ∨ columns = 0 then Except.error ("Rows and columns are required")
  else
    let bitsAllocated := jsOrNat bitsAllocatedOpt 0
    let bitsStored := jsOrNat bitsStoredOpt bitsAllocated
    if bitsAllocated ≠ 8 ∧ bitsAllocated ≠ 16 then Except.error ("Invalid bits allocated value")
    else
      let pixelRepresentation := jsOrNat pixelRepresentationOpt 0
      let highBit := jsOrNat highBitOpt (bitsStored - 1)
      let samplesPerPixel := jsOrNat samplesPerPixelOpt 1
      let planarConfiguration := jsOrNat planarConfigurationOpt 0
      let photometricInterpretation :=
        if decodedPhotometricInterpretation ≠ "" then decodedPhotometricInterpretation
        else photometricInterpretationOpt.getD ("")
      match toTypedPixelData decodedBuffer pixelRepresentation bitsAllocated bitsStored highBit with
      | Except.error e => Except.error e
      | Except.ok typedPixelData =>
        let mm := calculateMinMaxPixelValues typedPixelData
        let rescaleIntercept := jsOrRat rescaleInterceptOpt 0
        let rescaleSlope := jsOrRat rescaleSlopeOpt 1
        match windowCenterOpt, windowWidthOpt with
        | some wc, some ww =>
          Except.ok ⟨samplesPerPixel, photometricInterpretation, planarConfiguration, rows, columns,
            bitsAllocated, bitsStored, highBit, rescaleIntercept, rescaleSlope, pixelRepresentation,
            mm.1, mm.2, wc, ww, typedPixelData⟩
        | _, _ =>
          let maxVoi := (mm.2 : Rat) * rescaleSlope + rescaleIntercept
          let minVoi := (mm.1 : Rat) * rescaleSlope + rescaleIntercept
          Except.ok ⟨samplesPerPixel, photometricInterpretation, planarConfiguration, rows, columns,
            bitsAllocated, bitsStored, highBit, rescaleIntercept, rescaleSlope, pixelRepresentation,
            mm.1, mm.2, (maxVoi + minVoi) / 2, maxVoi - minVoi, typedPixelData⟩

/-! ## The grayscale compute kernel (src/shaders.ts lines 70-95) and
GrayscalePipeline.render (utils.ts lines 209-334) -/

/-- The `main` entry point of `GrayscaleShader` for one invocation
`(gx, gy)`.  Returns `none` when the guard returns early, otherwise the
output index and the `vec4<u32>` record written to `renderedPixelData`.
`clamp(v, 0, 255)` is WGSL `min(max(v, low), high)`; `u32(...)` truncates
(equal to floor on the clamped nonnegative value); `select(c, 255u - c,
invert > 0u)` inverts when the invert flag is positive. -/
def shaderMain (columns rows : Nat) (slope intercept centerMin05 widthMin1 : Rat)
    (invert : Nat) (pixelData : Nat → Rat) (gx gy : Nat) :
    Option (Nat × (Nat × Nat × Nat × Nat)) :=
  if gx > columns ∨ gy > rows then none
  else
    let idx := columns * gy + gx
    let s := pixelData idx * slope + intercept
    let v := ((s - centerMin05) / widthMin1 + 1 / 2) * 255
    let c := ⌊min (max v 0) 255⌋.toNat
    let r := if invert > 0 then 255 - c else c
    some (idx, (r, r, r, 255))

/-- The record read back for output pixel `i` by `GrayscalePipeline.render`:
the CPU side passes `windowCenter - 0.5` and `windowWidth - 1.0`, converts the
samples to f32, and dispatches the kernel over the 2-D grid; slot `i` of the
output buffer is written by the invocation with `gx = i % columns`,
`gy = i / columns`.  The invert flag is stored as the f32 `shouldInvert`,
whose bit pattern read as `u32` is positive exactly when the flag is 1. -/
def renderedPixel (f : ImageFrameType) (i : Nat) : Option (Nat × Nat × Nat × Nat) :=
  let shouldInvert : Nat := if f.photometricInterpretation = "MONOCHROME1" then 1 else 0
  (shaderMain f.columns f.rows f.rescaleSlope f.rescaleIntercept
    (f.windowCenter - 1 / 2) (f.windowWidth - 1) shouldInvert
    (fun j => ((f.pixelData.getD j 0 : Int) : Rat)) (i % f.columns) (i / f.columns)).map
    (fun w => w.2)

/-- The RGBA byte array produced by `GrayscalePipeline.render`: the readback
copies one `vec4<u32>` record per pixel into consecutive bytes. -/
def grayscalePipelineRender (f : ImageFrameType) : List Nat :=
  (List.range (f.rows * f.columns)).flatMap (fun i =>
    match renderedPixel f i with
    | some (r0, r1, r2, a) => [r0, r1, r2, a]
    | none => [0, 0, 0, 0])

/-- The per-pixel grayscale value exactly as the claim states it:
`s = sample * slope + intercept`, then
`v = clamp(((s - (center - 0.5)) / (width - 1) + 0.5) * 255, 0, 255)`, with
`clamp(v, lo, hi) = max lo (min v hi)` and the byte emitted for `v` being its
integer truncation; for MONOCHROME1 the value is inverted to `255 - v`. -/
def specGrayscaleValue (f : ImageFrameType) (i : Nat) : Nat :=
  let sample : Rat := ((f.pixelData.getD i 0 : Int) : Rat)
  let s := sample * f.rescaleSlope + f.rescaleIntercept
  let v := max 0 (min (((s - (f.windowCenter - 1 / 2)) / (f.windowWidth - 1) + 1 / 2) * 255) 255)
  let b := ⌊v⌋.toNat
  if f.photometricInterpretation = "MONOCHROME1" then 255 - b else b

/-! ## The bounded LRU cache (unnamed Cache class, PipelineCache.ts) -/

/-- The `Cache` class: a capacity bound and a JavaScript `Map`, whose
insertion order is modelled by the entry list (front = oldest key,
back = most recently inserted or touched). -/
structure Cache (V : Type) where
  max : Nat
  entries : List (String × V)

/-- The `Map.get` lookup over the ordered entry list. -/
def cacheFind (k : String) : List (String × V) → Option V
  | [] => none
  | e :: rest => if e.1 = k then some e.2 else cacheFind k rest

/-- The `Map.delete k` operation on the ordered entry list (keys of a `Map` are unique, so
removing every entry with the key is the same as deleting the single one). -/
def removeKey (k : String) : List (String × V) → List (String × V)
  | [] => []
  | e :: rest => if e.1 = k then removeKey k rest else e :: removeKey k rest

/-- The method `Cache.get`: on a hit, delete and re-insert the entry, promoting the key
to most-recently-used; returns the value (or `undefined`) and the updated
cache. -/
def Cache.get (c : Cache V) (k : String) : Option V × Cache V :=
  match cacheFind k c.entries with
  | none => (none, c)
  | some v => (some v, ⟨c.max, removeKey k c.entries ++ [(k, v)]⟩)

/-- The method `Cache.set`: delete an existing entry for the key, else when the cache is
at capacity delete the first (least-recently-used) key if one exists, then
insert at the most-recently-used position. -/
def Cache.set (c : Cache V) (k : String) (v : V) : Cache V :=
  let entries :=
    if (cacheFind k c.entries).isSome then removeKey k c.entries
    else if c.entries.length = c.max then
      match c.entries.head? with
      | some first => removeKey first.1 c.entries
      | none => c.entries
    else c.entries
  ⟨c.max, entries ++ [(k, v)]⟩

/-- A cache operation: the two public methods. -/
inductive CacheOp (V : Type) where
  | getOp (k : String)
  | setOp (k : String) (v : V)

/-- Applies one operation to a cache (the value a `get` returns is
discarded). -/
def applyOp (c : Cache V) : CacheOp V → Cache V
  | CacheOp.getOp k => (Cache.get c k).2
  | CacheOp.setOp k v => Cache.set c k v

/-- Applies a sequence of operations, oldest first. -/
def applyOps (c : Cache V) : List (CacheOp V) → Cache V
  | [] => c
  | op :: rest => applyOps (applyOp c op) rest

/-- A freshly constructed cache of capacity `max`. -/
def emptyCache (V : Type) (max : Nat) : Cache V := ⟨max, []⟩

/-! ## The top-level render orchestration (main module) -/

/-- The frame-cache logic of the public `render` function: when a non-empty
`cacheKey` is supplied, look the assembled frame up; on a miss run
`createImageFrame` (abstracted here as `assemble`, the parse/extract/decode/
assemble path) and store the result under the key.  Returns the updated
cache, the frame handed to the render pipeline, and whether the decode path
ran. -/
def renderModel (assemble : List Nat → V) (c0 : Cache V)
    (cacheKey : Option String) (bytes : List Nat) : Cache V × V × Bool :=
  match cacheKey with
  | none => (c0, assemble bytes, true)
  | some k =>
    if k = "" then (c0, assemble bytes, true)
    else
      match Cache.get c0 k with
      | (some f, c1) => (c1, f, false)
      | (none, c1) =>
        let f := assemble bytes
        (Cache.set c1 k f, f, true)

/-! ## Helper lemmas about swapBytes -/

theorem swapBytes_length : ∀ l : List Nat, (swapBytes l).length = l.length
  | [] => rfl
  | [_] => rfl
  | _ :: _ :: rest => by
    simp [swapBytes, swapBytes_length rest]

theorem swapBytes_involutive : ∀ l : List Nat, l.length % 2 = 0 →
    swapBytes (swapBytes l) = l
  | [], _ => rfl
  | [_], h => by simp at h
  | a :: b :: rest, h => by
    have hr : rest.length % 2 = 0 := by
      simp only [List.length_cons] at h
      omega
    simp [swapBytes, swapBytes_involutive rest hr]

theorem swapBytes_pairs : ∀ (l : List Nat) (i : Nat), 2 * i + 1 < l.length →
    (swapBytes l).getD (2 * i) 0 = l.getD (2 * i + 1) 0 ∧
    (swapBytes l).getD (2 * i + 1) 0 = l.getD (2 * i) 0
  | [], _, h => by simp at h
  | [_], i, h => by simp only [List.length_singleton] at h; omega
  | a :: b :: rest, 0, _ => by simp [swapBytes]
  | a :: b :: rest, i + 1, h => by
    have hr : 2 * i + 1 < rest.length := by
      simp only [List.length_cons] at h
      omega
    have ih := swapBytes_pairs rest i hr
    have h2 : 2 * (i + 1) = 2 * i + 1 + 1 := by ring
    simp only [swapBytes, h2, List.getD_cons_succ]
    exact ih

theorem swapBytes_getLast?_of_odd : ∀ l : List Nat, l.length % 2 = 1 →
    (swapBytes l).getLast? = some 0
  | [], h => by simp at h
  | [_], _ => rfl
  | a :: b :: rest, h => by
    have hr : rest.length % 2 = 1 := by
      simp only [List.length_cons] at h
      omega
    have hne : swapBytes rest ≠ [] := by
      intro hnil
      have := swapBytes_length rest
      rw [hnil] at this
      simp at this
      omega
    cases hsr : swapBytes rest with
    | nil => exact absurd hsr hne
    | cons x xs =>
      have := swapBytes_getLast?_of_odd rest hr
      rw [hsr] at this
      simp [swapBytes, hsr, List.getLast?_cons_cons] at this ⊢
      exact this


/-! ## Helper lemmas about the clamp, the min/max scan and the typed view -/

theorem rat_clamp_comm (v : Rat) : min (max v 0) 255 = max 0 (min v 255) := by
  rcases le_total v 0 with h | h <;> rcases le_total v 255 with h2 | h2 <;>
    simp only [min_def, max_def] <;> split_ifs <;> linarith

theorem minMax_fst_le_snd (l : List Int) :
    (calculateMinMaxPixelValues l).1 ≤ (calculateMinMaxPixelValues l).2 := by
  have aux : ∀ (t : List Int) (mm : Int × Int), mm.1 ≤ mm.2 →
      (t.foldl minMaxStep mm).1 ≤ (t.foldl minMaxStep mm).2 := by
    intro t
    induction t with
    | nil => intro mm h; exact h
    | cons v rest ih =>
      intro mm h
      refine ih (minMaxStep mm v) ?_
      unfold minMaxStep
      split_ifs <;> omega
  exact aux l _ le_rfl

theorem toUint16List_length : ∀ l : List Nat, (toUint16List l).length = l.length / 2
  | [] => rfl
  | [_] => by simp [toUint16List]
  | _ :: _ :: rest => by
    simp only [toUint16List, List.length_cons, toUint16List_length rest]
    omega

/-! ## Helper lemmas about the LRU cache -/

theorem cacheFind_append (k : String) :
    ∀ l1 l2 : List (String × V), cacheFind k (l1 ++ l2) =
      match cacheFind k l1 with
      | some v => some v
      | none => cacheFind k l2
  | [], _ => rfl
  | e :: rest, l2 => by
    by_cases h : e.1 = k
    · simp [cacheFind, h]
    · simp [cacheFind, h, cacheFind_append k rest l2]

theorem cacheFind_eq_none_iff (k : String) :
    ∀ l : List (String × V), cacheFind k l = none ↔ ∀ e ∈ l, e.1 ≠ k
  | [] => by simp [cacheFind]
  | e :: rest => by
    by_cases h : e.1 = k
    · simp [cacheFind, h]
    · simp [cacheFind, h, cacheFind_eq_none_iff k rest]

theorem removeKey_find_self (k : String) :
    ∀ l : List (String × V), cacheFind k (removeKey k l) = none
  | [] => rfl
  | e :: rest => by
    by_cases h : e.1 = k
    · simp [removeKey, h, removeKey_find_self k rest]
    · simp [removeKey, cacheFind, h, removeKey_find_self k rest]

theorem removeKey_find_ne (k k' : String) (hne : k' ≠ k) :
    ∀ l : List (String × V), cacheFind k' (removeKey k l) = cacheFind k' l
  | [] => rfl
  | e :: rest => by
    by_cases h : e.1 = k
    · have h2 : e.1 ≠ k' := by rw [h]; exact fun hc => hne hc.symm
      have h3 : k ≠ k' := fun hc => hne hc.symm
      simp [removeKey, cacheFind, h, h2, h3, removeKey_find_ne k k' hne rest]
    · simp [removeKey, cacheFind, h, removeKey_find_ne k k' hne rest]

theorem removeKey_find_none (k0 k : String) :
    ∀ l : List (String × V), cacheFind k l = none →
      cacheFind k (removeKey k0 l) = none := by
  intro l h
  rw [cacheFind_eq_none_iff] at h ⊢
  intro e he
  apply h
  revert he
  induction l with
  | nil => intro he; exact absurd he (by simp [removeKey])
  | cons x rest ih =>
    intro he
    by_cases hx : x.1 = k0
    · simp only [removeKey, if_pos hx] at he
      exact List.mem_cons_of_mem x (ih (fun e2 he2 => h e2 (List.mem_cons_of_mem x he2)) he)
    · simp only [removeKey, if_neg hx, List.mem_cons] at he
      rcases he with he | he
      · exact he ▸ List.mem_cons_self x rest
      · exact List.mem_cons_of_mem x (ih (fun e2 he2 => h e2 (List.mem_cons_of_mem x he2)) he)

theorem removeKey_eq_self (k : String) :
    ∀ l : List (String × V), (∀ e ∈ l, e.1 ≠ k) → removeKey k l = l
  | [], _ => rfl
  | e :: rest, h => by
    have he : e.1 ≠ k := h e (List.mem_cons_self e rest)
    simp [removeKey, he, removeKey_eq_self k rest (fun e2 he2 => h e2 (List.mem_cons_of_mem e he2))]

theorem removeKey_length_lt (k : String) :
    ∀ (l : List (String × V)) (v : V), cacheFind k l = some v →
      (removeKey k l).length < l.length
  | [], v, h => by simp [cacheFind] at h
  | e :: rest, v, h => by
    by_cases hx : e.1 = k
    · simp only [removeKey, if_pos hx, List.length_cons]
      have : (removeKey k rest).length ≤ rest.length := by
        clear h
        induction rest with
        | nil => simp [removeKey]
        | cons y t ih =>
          by_cases hy : y.1 = k
          · simp only [removeKey, if_pos hy, List.length_cons]
            omega
          · simp only [removeKey, if_neg hy, List.length_cons]
            omega
      omega
    · simp only [cacheFind, if_neg hx] at h
      have := removeKey_length_lt k rest v h
      simp only [removeKey, if_neg hx, List.length_cons]
      omega

theorem removeKey_length_le (k : String) :
    ∀ l : List (String × V), (removeKey k l).length ≤ l.length
  | [] => le_refl _
  | e :: rest => by
    by_cases hx : e.1 = k
    · simp only [removeKey, if_pos hx, List.length_cons]
      have := removeKey_length_le k rest
      omega
    · simp only [removeKey, if_neg hx, List.length_cons]
      have := removeKey_length_le k rest
      omega

theorem cacheSet_find_self (c : Cache V) (k : String) (v : V) :
    cacheFind k (Cache.set c k v).entries = some v := by
  unfold Cache.set
  rw [cacheFind_append]
  cases hf : cacheFind k c.entries with
  | some w =>
    simp only [hf, Option.isSome_some, if_pos]
    rw [removeKey_find_self]
    simp [cacheFind]
  | none =>
    simp only [hf, Option.isSome_none, Bool.false_eq_true, if_false]
    by_cases hlen : c.entries.length = c.max
    · simp only [if_pos hlen]
      cases hh : c.entries.head? with
      | some first =>
        rw [removeKey_find_none first.1 k c.entries hf]
        simp [cacheFind]
      | none =>
        rw [hf]
        simp [cacheFind]
    · simp only [if_neg hlen]
      rw [hf]
      simp [cacheFind]

theorem cacheGet_found (c : Cache V) (k : String) (v : V)
    (hf : cacheFind k c.entries = some v) :
    Cache.get c k = (some v, ⟨c.max, removeKey k c.entries ++ [(k, v)]⟩) := by
  unfold Cache.get
  rw [hf]

theorem cacheGet_find_after (c : Cache V) (k : String) (v : V)
    (hf : cacheFind k c.entries = some v) :
    cacheFind k (Cache.get c k).2.entries = some v := by
  rw [cacheGet_found c k v hf]
  rw [cacheFind_append]
  rw [removeKey_find_self]
  simp [cacheFind]


theorem applyOp_length_le (c : Cache V) (op : CacheOp V) (hN : 1 ≤ c.max)
    (hlen : c.entries.length ≤ c.max) :
    (applyOp c op).entries.length ≤ c.max ∧ (applyOp c op).max = c.max := by
  cases op with
  | getOp k =>
    simp only [applyOp]
    unfold Cache.get
    cases hf : cacheFind k c.entries with
    | none => exact ⟨hlen, rfl⟩
    | some v =>
      refine ⟨?_, rfl⟩
      have := removeKey_length_lt k c.entries v hf
      simp only [List.length_append, List.length_cons, List.length_nil]
      omega
  | setOp k v =>
    simp only [applyOp]
    unfold Cache.set
    refine ⟨?_, rfl⟩
    cases hf : cacheFind k c.entries with
    | some w =>
      have := removeKey_length_lt k c.entries w hf
      simp only [hf, Option.isSome_some, if_pos, List.length_append, List.length_cons,
        List.length_nil]
      omega
    | none =>
      simp only [hf, Option.isSome_none, Bool.false_eq_true, if_false]
      by_cases he : c.entries.length = c.max
      · simp only [if_pos he]
        cases hh : c.entries.head? with
        | some first =>
          have hfirst : cacheFind first.1 c.entries = some first.2 := by
            cases hent : c.entries with
            | nil => rw [hent] at hh; simp at hh
            | cons x t =>
              rw [hent] at hh
              simp only [List.head?_cons, Option.some_inj] at hh
              subst hh
              simp [cacheFind]
          have := removeKey_length_lt first.1 c.entries first.2 hfirst
          simp only [List.length_append, List.length_cons, List.length_nil]
          omega
        | none =>
          have hnil : c.entries = [] := List.head?_eq_none_iff.mp hh
          rw [hnil] at he
          simp only [List.length_nil] at he
          omega
      · simp only [if_neg he, List.length_append, List.length_cons, List.length_nil]
        omega

theorem applyOps_length_le (N : Nat) (hN : 1 ≤ N) (ops : List (CacheOp V)) :
    ∀ c : Cache V, c.max = N → c.entries.length ≤ N →
      (applyOps c ops).entries.length ≤ N := by
  induction ops with
  | nil => intro c _ hlen; exact hlen
  | cons op rest ih =>
    intro c hmax hlen
    have h1 := applyOp_length_le c op (hmax ▸ hN) (hmax ▸ hlen)
    simp only [applyOps]
    exact ih (applyOp c op) (h1.2.trans hmax) (hmax ▸ h1.1)

theorem cacheSet_full_evicts (M : Nat) (h : String × V) (t : List (String × V))
    (k : String) (v : V) (hNodup : ((h :: t).map Prod.fst).Nodup)
    (hf : cacheFind k (h :: t) = none) (hlen : (h :: t).length = M) :
    (Cache.set ⟨M, h :: t⟩ k v).entries = t ++ [(k, v)] := by
  unfold Cache.set
  simp only [hf, Option.isSome_none, Bool.false_eq_true, if_false, hlen, if_pos,
    List.head?_cons]
  have hrk : removeKey h.1 (h :: t) = t := by
    simp only [removeKey, if_pos rfl]
    apply removeKey_eq_self
    intro e he hek
    simp only [List.map_cons, List.nodup_cons] at hNodup
    exact hNodup.1 (hek ▸ List.mem_map_of_mem Prod.fst he)
  rw [hrk]

theorem applyOps_sets_drop (N : Nat) (hN : 1 ≤ N) :
    ∀ (pairs : List (String × V)) (c : Cache V),
      c.max = N → c.entries.length ≤ N →
      ((c.entries ++ pairs).map Prod.fst).Nodup →
      (applyOps c (pairs.map (fun p => CacheOp.setOp p.1 p.2))).entries
        = (c.entries ++ pairs).drop ((c.entries.length + pairs.length) - N) := by
  intro pairs
  induction pairs with
  | nil =>
    intro c hmax hlen _
    simp only [List.map_nil, applyOps, List.append_nil, List.length_nil, Nat.add_zero]
    rw [Nat.sub_eq_zero_of_le hlen, List.drop_zero]
  | cons p rest ih =>
    obtain ⟨pk, pv⟩ := p
    intro c hmax hlen hNodup
    have hfind : cacheFind pk c.entries = none := by
      rw [cacheFind_eq_none_iff]
      intro e he hek
      rw [List.map_append, List.nodup_append] at hNodup
      have hm2 : pk ∈ ((pk, pv) :: rest).map Prod.fst := by simp
      exact hNodup.2.2 (hek ▸ List.mem_map_of_mem Prod.fst he) hm2
    simp only [List.map_cons, applyOps, applyOp]
    by_cases he : c.entries.length = N
    · cases hent : c.entries with
      | nil => rw [hent] at he; simp only [List.length_nil] at he; omega
      | cons h t =>
        have hset : (Cache.set c pk pv).entries = t ++ [(pk, pv)] := by
          have hc : c = ⟨N, h :: t⟩ := by
            cases c with
            | mk m e =>
              simp only [Cache.mk.injEq]
              exact ⟨hmax, hent⟩
          rw [hc]
          apply cacheSet_full_evicts N h t pk pv
          · rw [← hent]
            have := hNodup
            rw [List.map_append, List.nodup_append] at this
            exact this.1
          · rw [← hent]; exact hfind
          · rw [← hent, he]
        have hmax2 : (Cache.set c pk pv).max = N := by
          unfold Cache.set
          exact hmax
        have hlen2 : (Cache.set c pk pv).entries.length ≤ N := by
          rw [hset]
          rw [hent] at he
          simp only [List.length_append, List.length_cons, List.length_nil] at he ⊢
          omega
        have hNodup2 : (((Cache.set c pk pv).entries ++ rest).map Prod.fst).Nodup := by
          rw [hset]
          have hform : ((t ++ [(pk, pv)]) ++ rest).map Prod.fst
              = t.map Prod.fst ++ pk :: rest.map Prod.fst := by
            simp
          rw [hform]
          have horig : (h.1 :: (t.map Prod.fst ++ pk :: rest.map Prod.fst)).Nodup := by
            have := hNodup
            rw [hent] at this
            simpa using this
          exact horig.of_cons
        have hres := ih (Cache.set c pk pv) hmax2 hlen2 hNodup2
        rw [hres, hset]
        have hlen' : t.length + 1 = N := by
          rw [hent] at he
          simpa using he
        have harith1 : (t ++ [(pk, pv)]).length + rest.length - N = rest.length := by
          simp only [List.length_append, List.length_cons, List.length_nil]
          omega
        have harith2 : (h :: t).length + ((pk, pv) :: rest).length - N = rest.length + 1 := by
          simp only [List.length_cons]
          omega
        rw [harith1, harith2]
        simp only [List.cons_append, List.drop_succ_cons, List.append_assoc,
          List.singleton_append, List.nil_append]
    · have hlt : c.entries.length < N := lt_of_le_of_ne hlen he
      have hset : (Cache.set c pk pv).entries = c.entries ++ [(pk, pv)] := by
        unfold Cache.set
        rw [hmax]
        simp only [hfind, Option.isSome_none, Bool.false_eq_true, if_false, if_neg he]
      have hmax2 : (Cache.set c pk pv).max = N := by
        unfold Cache.set
        exact hmax
      have hlen2 : (Cache.set c pk pv).entries.length ≤ N := by
        rw [hset]
        simp only [List.length_append, List.length_cons, List.length_nil]
        omega
      have hNodup2 : (((Cache.set c pk pv).entries ++ rest).map Prod.fst).Nodup := by
        rw [hset]
        simpa [List.append_assoc] using hNodup
      have hres := ih (Cache.set c pk pv) hmax2 hlen2 hNodup2
      rw [hres, hset]
      simp only [List.length_append, List.length_cons, List.length_nil, List.append_assoc,
        List.singleton_append]
      have harith : c.entries.length + (0 + 1) + rest.length - N
          = c.entries.length + (rest.length + 1) - N := by omega
      rw [harith]


/-! ## Inversion of a successful createImageFrame -/

theorem createImageFrame_ok_inv (rows columns : Nat)
    (bitsAllocatedOpt bitsStoredOpt pixelRepresentationOpt highBitOpt samplesPerPixelOpt planarConfigurationOpt : Option Nat)
    (photometricInterpretationOpt : Option String)
    (rescaleInterceptOpt rescaleSlopeOpt windowCenterOpt windowWidthOpt : Option Rat)
    (decodedBuffer : List Nat) (decodedPhotometricInterpretation : String)
    (f : ImageFrameType)
    (h : createImageFrame rows columns bitsAllocatedOpt bitsStoredOpt pixelRepresentationOpt
      highBitOpt samplesPerPixelOpt planarConfigurationOpt photometricInterpretationOpt
      rescaleInterceptOpt rescaleSlopeOpt windowCenterOpt windowWidthOpt
      decodedBuffer decodedPhotometricInterpretation = Except.ok f) :
    f.rows = rows ∧ f.columns = columns ∧
    f.samplesPerPixel = jsOrNat samplesPerPixelOpt 1 ∧
    f.bitsAllocated = jsOrNat bitsAllocatedOpt 0 ∧
    (f.bitsAllocated = 8 ∨ f.bitsAllocated = 16) ∧
    f.bitsStored = jsOrNat bitsStoredOpt f.bitsAllocated ∧
    f.highBit = jsOrNat highBitOpt (f.bitsStored - 1) ∧
    f.pixelRepresentation = jsOrNat pixelRepresentationOpt 0 ∧
    f.rescaleIntercept = jsOrRat rescaleInterceptOpt 0 ∧
    f.rescaleSlope = jsOrRat rescaleSlopeOpt 1 ∧
    toTypedPixelData decodedBuffer f.pixelRepresentation f.bitsAllocated f.bitsStored f.highBit
      = Except.ok f.pixelData ∧
    f.minPixelValue = (calculateMinMaxPixelValues f.pixelData).1 ∧
    f.maxPixelValue = (calculateMinMaxPixelValues f.pixelData).2 ∧
    ((windowCenterOpt = none ∨ windowWidthOpt = none) →
      f.windowWidth = ((f.maxPixelValue : Rat) * f.rescaleSlope + f.rescaleIntercept)
          - ((f.minPixelValue : Rat) * f.rescaleSlope + f.rescaleIntercept) ∧
      f.windowCenter = (((f.maxPixelValue : Rat) * f.rescaleSlope + f.rescaleIntercept)
          + ((f.minPixelValue : Rat) * f.rescaleSlope + f.rescaleIntercept)) / 2) := by
  by_cases hdims : rows = 0 ∨ columns = 0
  · rw [createImageFrame, if_pos hdims] at h
    exact absurd h (by simp)
  · by_cases hbits : jsOrNat bitsAllocatedOpt 0 ≠ 8 ∧ jsOrNat bitsAllocatedOpt 0 ≠ 16
    · rw [createImageFrame, if_neg hdims] at h
      simp only [if_pos hbits] at h
      exact absurd h (by simp)
    · have hbits' : jsOrNat bitsAllocatedOpt 0 = 8 ∨ jsOrNat bitsAllocatedOpt 0 = 16 := by
        rcases not_and_or.mp hbits with h8 | h16
        · exact Or.inl (not_ne_iff.mp h8)
        · exact Or.inr (not_ne_iff.mp h16)
      simp only [createImageFrame, if_neg hdims, if_neg hbits] at h
      cases htp : toTypedPixelData decodedBuffer (jsOrNat pixelRepresentationOpt 0)
          (jsOrNat bitsAllocatedOpt 0) (jsOrNat bitsStoredOpt (jsOrNat bitsAllocatedOpt 0))
          (jsOrNat highBitOpt (jsOrNat bitsStoredOpt (jsOrNat bitsAllocatedOpt 0) - 1)) with
      | error e =>
        rw [htp] at h
        exact absurd h (by simp)
      | ok typed =>
        rw [htp] at h
        cases windowCenterOpt with
        | some wc =>
          cases windowWidthOpt with
          | some ww =>
            simp only [Except.ok.injEq] at h
            subst h
            refine ⟨rfl, rfl, rfl, rfl, hbits', rfl, rfl, rfl, rfl, rfl, htp, rfl, rfl, ?_⟩
            rintro (hc | hc) <;> exact Option.noConfusion hc
          | none =>
            simp only [Except.ok.injEq] at h
            subst h
            exact ⟨rfl, rfl, rfl, rfl, hbits', rfl, rfl, rfl, rfl, rfl, htp, rfl, rfl,
              fun _ => ⟨rfl, rfl⟩⟩
        | none =>
          cases windowWidthOpt with
          | some ww =>
            simp only [Except.ok.injEq] at h
            subst h
            exact ⟨rfl, rfl, rfl, rfl, hbits', rfl, rfl, rfl, rfl, rfl, htp, rfl, rfl,
              fun _ => ⟨rfl, rfl⟩⟩
          | none =>
            simp only [Except.ok.injEq] at h
            subst h
            exact ⟨rfl, rfl, rfl, rfl, hbits', rfl, rfl, rfl, rfl, rfl, htp, rfl, rfl,
              fun _ => ⟨rfl, rfl⟩⟩

theorem toTypedPixelData_ok_length (buf : List Nat) (pr ba bs hb : Nat) (tpd : List Int)
    (h : toTypedPixelData buf pr ba bs hb = Except.ok tpd) :
    tpd.length = (if bs = 8 ∧ hb = 7 ∧ ba = 8 then buf.length else buf.length / 2) := by
  unfold toTypedPixelData at h
  by_cases h1 : bs = 8 ∧ hb = 7 ∧ ba = 8
  · rw [if_pos h1] at h
    rw [if_pos h1]
    simp only [Except.ok.injEq] at h
    subst h
    rw [List.length_map]
  · rw [if_neg h1] at h
    rw [if_neg h1]
    by_cases h2 : ba ≤ 16
    · rw [if_pos h2] at h
      by_cases h3 : pr = 0
      · rw [if_pos h3] at h
        simp only [Except.ok.injEq] at h
        subst h
        exact toUint16List_length buf
      · rw [if_neg h3] at h
        simp only [Except.ok.injEq] at h
        subst h
        rw [List.length_map]
        exact toUint16List_length buf
    · rw [if_neg h2] at h
      exact absurd h (by simp)

/-! ## Claim theorems -/

/-- C7: decoding under the uncompressed big-endian transfer syntax byte-swaps
every 2-byte unit exactly when bitsAllocated is in (8,16] and leaves 8-bit
data unchanged, and the byte-swap is an involution on every even-length
buffer. -/
theorem bigendian_swap_properties :
    (∀ (buf : List Nat) (ba : Nat), 8 < ba ∧ ba ≤ 16 →
      decodeFrameData TsKind.explicitVRBigEndian ba (some buf) = Except.ok (swapBytes buf)) ∧
    (∀ (buf : List Nat) (ba : Nat), ¬(8 < ba ∧ ba ≤ 16) →
      decodeFrameData TsKind.explicitVRBigEndian ba (some buf) = Except.ok buf) ∧
    (∀ (buf : List Nat) (i : Nat), 2 * i + 1 < buf.length →
      (swapBytes buf).getD (2 * i) 0 = buf.getD (2 * i + 1) 0 ∧
      (swapBytes buf).getD (2 * i + 1) 0 = buf.getD (2 * i) 0) ∧
    (∀ buf : List Nat, buf.length % 2 = 0 → swapBytes (swapBytes buf) = buf) :=
  ⟨fun buf ba hba => by simp only [decodeFrameData, if_pos hba],
   fun buf ba hba => by simp only [decodeFrameData, if_neg hba],
   swapBytes_pairs,
   swapBytes_involutive⟩

/-- Witness for C7 at concrete inputs. -/
theorem bigendian_swap_properties_witness :
    decodeFrameData TsKind.explicitVRBigEndian 16 (some [1, 2]) = Except.ok (swapBytes [1, 2]) ∧
    decodeFrameData TsKind.explicitVRBigEndian 8 (some [1, 2]) = Except.ok [1, 2] ∧
    ((swapBytes [1, 2, 3, 4]).getD (2 * 0) 0 = [1, 2, 3, 4].getD (2 * 0 + 1) 0 ∧
      (swapBytes [1, 2, 3, 4]).getD (2 * 0 + 1) 0 = [1, 2, 3, 4].getD (2 * 0) 0) ∧
    swapBytes (swapBytes [1, 2, 3, 4]) = [1, 2, 3, 4] :=
  ⟨bigendian_swap_properties.1 [1, 2] 16 (by decide),
   bigendian_swap_properties.2.1 [1, 2] 8 (by decide),
   bigendian_swap_properties.2.2.1 [1, 2, 3, 4] 0 (by decide),
   bigendian_swap_properties.2.2.2 [1, 2, 3, 4] (by decide)⟩

/-- C9: for the big-endian transfer syntax with bitsAllocated 16 and an
odd-length encoded buffer, decodeFrameData succeeds with a decoded buffer of
the same odd length in which every complete 2-byte pair is swapped and the
final unpaired byte is 0. -/
theorem bigendian_odd_swap (buf : List Nat) (h : buf.length % 2 = 1) :
    decodeFrameData TsKind.explicitVRBigEndian 16 (some buf) = Except.ok (swapBytes buf) ∧
    (swapBytes buf).length = buf.length ∧
    (∀ i : Nat, 2 * i + 1 < buf.length →
      (swapBytes buf).getD (2 * i) 0 = buf.getD (2 * i + 1) 0 ∧
      (swapBytes buf).getD (2 * i + 1) 0 = buf.getD (2 * i) 0) ∧
    (swapBytes buf).getLast? = some 0 :=
  ⟨by simp only [decodeFrameData, if_pos (by norm_num : (8:Nat) < 16 ∧ (16:Nat) ≤ 16)],
   swapBytes_length buf,
   fun i hi => swapBytes_pairs buf i hi,
   swapBytes_getLast?_of_odd buf h⟩

/-- Witness for C9 at the concrete buffer [1, 2, 3]. -/
theorem bigendian_odd_swap_witness :
    ([1, 2, 3] : List Nat).length % 2 = 1 ∧
    (decodeFrameData TsKind.explicitVRBigEndian 16 (some [1, 2, 3])
        = Except.ok (swapBytes [1, 2, 3]) ∧
      (swapBytes [1, 2, 3]).length = ([1, 2, 3] : List Nat).length ∧
      (∀ i : Nat, 2 * i + 1 < ([1, 2, 3] : List Nat).length →
        (swapBytes [1, 2, 3]).getD (2 * i) 0 = [1, 2, 3].getD (2 * i + 1) 0 ∧
        (swapBytes [1, 2, 3]).getD (2 * i + 1) 0 = [1, 2, 3].getD (2 * i) 0) ∧
      (swapBytes [1, 2, 3]).getLast? = some 0) :=
  ⟨by decide, bigendian_odd_swap [1, 2, 3] (by decide)⟩

/-- C2 (code bug in the kernel guard): the shader checks the invocation id
with strict greater-than, so an invocation whose x-coordinate equals
`columns` (beyond the frame, whose valid x-indices are `0..columns-1`) is not
a no-op.  For a 1-by-1 frame, the dispatched 16-by-16 grid contains
invocation (1, 0); its index lies outside the frame, yet the kernel computes
and writes the record (127, 127, 127, 255) to output index 1, outside the
frame's single output pixel. -/
theorem shader_guard_off_by_one :
    1 < 16 * ((1 + 15) / 16) ∧
    ¬ (1 < (1 : Nat)) ∧
    shaderMain 1 1 1 0 0 1 0 (fun _ => 0) 1 0 = some (1, (127, 127, 127, 255)) := by
  refine ⟨by norm_num, by norm_num, ?_⟩
  have hguard : ¬((1:Nat) > 1 ∨ (0:Nat) > 1) := by norm_num
  simp only [shaderMain, if_neg hguard]
  norm_num
  decide

/-- C3 counterexample: with a 2-byte container, offset 0, one 1-by-4 8-bit
single-sample frame (frame byte length 4), the frame end 0 + 4 exceeds the
data length 2, yet extraction does not fail: the slice is silently clamped
and the 2 available bytes are returned. -/
theorem uncompressed_overrun_counterexample :
    ([7, 7] : List Nat).length < 0 + 0 * (1 * 4 * 1) + 1 * 4 * 1 ∧
    getUncompressedImageFrame [7, 7] 0 1 4 1 8 0 = Except.ok [7, 7] := by
  constructor
  · norm_num
  · rfl


/-- C3 (amended): native frame extraction fails exactly when the frame byte
offset reaches or exceeds the container's data length, or when bitsAllocated
is neither 8 nor 16 (including 0, the missing-attribute failure); when the
offset is in range it returns the slice clamped to the data's end, which is
exactly the frame's bytes whenever offset plus frame byte length fits inside
the data.  A frame whose offset is in range but whose end overruns the data
is returned truncated, with no error. -/
theorem getUncompressedImageFrame_spec (data : List Nat)
    (pixelDataOffset rows columns samplesPerPixel bitsAllocated frameIndex : Nat)
    (hrows : rows ≠ 0) (hcols : columns ≠ 0) (hspp : samplesPerPixel ≠ 0) :
    ((bitsAllocated = 8 ∨ bitsAllocated = 16) →
      (pixelDataOffset + frameIndex * (rows * columns * samplesPerPixel * (bitsAllocated / 8))
          ≥ data.length →
        getUncompressedImageFrame data pixelDataOffset rows columns samplesPerPixel
          bitsAllocated frameIndex = Except.error ("Frame exceeds size of pixel data")) ∧
      (pixelDataOffset + frameIndex * (rows * columns * samplesPerPixel * (bitsAllocated / 8))
          < data.length →
        getUncompressedImageFrame data pixelDataOffset rows columns samplesPerPixel
          bitsAllocated frameIndex = Except.ok
            ((data.drop (pixelDataOffset
                + frameIndex * (rows * columns * samplesPerPixel * (bitsAllocated / 8)))).take
              (rows * columns * samplesPerPixel * (bitsAllocated / 8)))) ∧
      (pixelDataOffset + frameIndex * (rows * columns * samplesPerPixel * (bitsAllocated / 8))
            + rows * columns * samplesPerPixel * (bitsAllocated / 8) ≤ data.length →
        ((data.drop (pixelDataOffset
            + frameIndex * (rows * columns * samplesPerPixel * (bitsAllocated / 8)))).take
          (rows * columns * samplesPerPixel * (bitsAllocated / 8))).length
            = rows * columns * samplesPerPixel * (bitsAllocated / 8))) ∧
    (¬(bitsAllocated = 8 ∨ bitsAllocated = 16) →
      ∃ e, getUncompressedImageFrame data pixelDataOffset rows columns samplesPerPixel
        bitsAllocated frameIndex = Except.error e) := by
  constructor
  · intro hba
    have hattrs : ¬(bitsAllocated = 0 ∨ rows = 0 ∨ columns = 0 ∨ samplesPerPixel = 0) := by
      rcases hba with h8 | h16 <;> subst bitsAllocated <;> simp [hrows, hcols, hspp]
    refine ⟨?_, ?_, ?_⟩
    · intro hoff
      rcases hba with h8 | h16
      · subst bitsAllocated
        have hoff' : pixelDataOffset + frameIndex * (rows * columns * samplesPerPixel)
            ≥ data.length := by simpa using hoff
        simp only [getUncompressedImageFrame, if_neg hattrs]
        norm_num
        intro hlt
        exact absurd hoff' (by omega)
      · subst bitsAllocated
        have hoff' : pixelDataOffset + frameIndex * (rows * columns * samplesPerPixel) * 2
            ≥ data.length := by rw [Nat.mul_assoc]; simpa using hoff
        simp only [getUncompressedImageFrame, if_neg hattrs]
        norm_num
        intro hlt
        exact absurd hoff' (by omega)
    · intro hoff
      rcases hba with h8 | h16
      · subst bitsAllocated
        have hoff' : pixelDataOffset + frameIndex * (rows * columns * samplesPerPixel)
            < data.length := by simpa using hoff
        simp only [getUncompressedImageFrame, if_neg hattrs]
        norm_num
        intro hge
        exact absurd hge (by omega)
      · subst bitsAllocated
        have hoff' : pixelDataOffset + frameIndex * (rows * columns * samplesPerPixel) * 2
            < data.length := by rw [Nat.mul_assoc]; simpa using hoff
        simp only [getUncompressedImageFrame, if_neg hattrs]
        norm_num
        rw [if_neg (by omega)]
        have hassoc : frameIndex * (rows * columns * samplesPerPixel * 2)
            = frameIndex * (rows * columns * samplesPerPixel) * 2 := by ring
        rw [hassoc]
    · intro hfit
      rw [List.length_take, List.length_drop]
      omega
  · intro hba
    by_cases h0 : bitsAllocated = 0 ∨ rows = 0 ∨ columns = 0 ∨ samplesPerPixel = 0
    · exact ⟨"Missing required attributes", by rw [getUncompressedImageFrame, if_pos h0]⟩
    · refine ⟨"Unsupported pixel format", ?_⟩
      rw [not_or] at hba
      simp only [getUncompressedImageFrame, if_neg h0, if_neg hba.1, if_neg hba.2]

/-- Witness for C3's amended theorem at a concrete second frame of a 4-byte
container. -/
theorem getUncompressedImageFrame_spec_witness :
    (1 : Nat) ≠ 0 ∧ (2 : Nat) ≠ 0 ∧ (1 : Nat) ≠ 0 ∧
    ((((8:Nat) = 8 ∨ (8:Nat) = 16) →
      (0 + 1 * (1 * 2 * 1 * (8 / 8)) ≥ ([1, 2, 3, 4] : List Nat).length →
        getUncompressedImageFrame [1, 2, 3, 4] 0 1 2 1 8 1
          = Except.error ("Frame exceeds size of pixel data")) ∧
      (0 + 1 * (1 * 2 * 1 * (8 / 8)) < ([1, 2, 3, 4] : List Nat).length →
        getUncompressedImageFrame [1, 2, 3, 4] 0 1 2 1 8 1 = Except.ok
          ((([1, 2, 3, 4] : List Nat).drop (0 + 1 * (1 * 2 * 1 * (8 / 8)))).take
            (1 * 2 * 1 * (8 / 8)))) ∧
      (0 + 1 * (1 * 2 * 1 * (8 / 8)) + 1 * 2 * 1 * (8 / 8) ≤ ([1, 2, 3, 4] : List Nat).length →
        ((([1, 2, 3, 4] : List Nat).drop (0 + 1 * (1 * 2 * 1 * (8 / 8)))).take
          (1 * 2 * 1 * (8 / 8))).length = 1 * 2 * 1 * (8 / 8))) ∧
    (¬((8:Nat) = 8 ∨ (8:Nat) = 16) →
      ∃ e, getUncompressedImageFrame [1, 2, 3, 4] 0 1 2 1 8 1 = Except.error e)) :=
  ⟨by decide, by decide, by decide,
   getUncompressedImageFrame_spec [1, 2, 3, 4] 0 1 2 1 8 1 (by decide) (by decide) (by decide)⟩

/-- C1: for every grayscale render and every in-frame output pixel i, the
kernel writes the record (r, r, r, 255) where r is exactly the claim's
formula: rescale, VOI window with clamp to [0, 255] (truncated to a byte at
the u32 conversion), and inversion for MONOCHROME1. -/
theorem grayscale_render_pixel_formula (f : ImageFrameType) (i : Nat)
    (hGray : f.photometricInterpretation = "MONOCHROME1"
      ∨ f.photometricInterpretation = "MONOCHROME2")
    (hi : i < f.rows * f.columns) :
    renderedPixel f i
      = some (specGrayscaleValue f i, specGrayscaleValue f i, specGrayscaleValue f i, 255) := by
  have hcols : 0 < f.columns := by
    rcases Nat.eq_zero_or_pos f.columns with h0 | h
    · rw [h0, Nat.mul_zero] at hi
      exact absurd hi (Nat.not_lt_zero i)
    · exact h
  have hmod : i % f.columns < f.columns := Nat.mod_lt _ hcols
  have hdiv : i / f.columns < f.rows := (Nat.div_lt_iff_lt_mul hcols).mpr hi
  have hguard : ¬(i % f.columns > f.columns ∨ i / f.columns > f.rows) := by
    push_neg
    exact ⟨le_of_lt hmod, le_of_lt hdiv⟩
  simp only [renderedPixel, shaderMain, if_neg hguard, Option.map_some', specGrayscaleValue,
    Nat.div_add_mod, rat_clamp_comm]
  by_cases hm : f.photometricInterpretation = "MONOCHROME1" <;>
    simp [hm]

/-- Witness for C1: a 1-by-1 MONOCHROME2 frame, slope 1, intercept 0,
center 128, width 256 and sample 128. -/
theorem grayscale_render_pixel_formula_witness :
    ((⟨1, "MONOCHROME2", 0, 1, 1, 8, 8, 7, 0, 1, 0, 128, 128, 128, 256, [128]⟩ :
        ImageFrameType).photometricInterpretation = "MONOCHROME1"
      ∨ (⟨1, "MONOCHROME2", 0, 1, 1, 8, 8, 7, 0, 1, 0, 128, 128, 128, 256, [128]⟩ :
        ImageFrameType).photometricInterpretation = "MONOCHROME2") ∧
    0 < (⟨1, "MONOCHROME2", 0, 1, 1, 8, 8, 7, 0, 1, 0, 128, 128, 128, 256, [128]⟩ :
        ImageFrameType).rows
      * (⟨1, "MONOCHROME2", 0, 1, 1, 8, 8, 7, 0, 1, 0, 128, 128, 128, 256, [128]⟩ :
        ImageFrameType).columns ∧
    renderedPixel ⟨1, "MONOCHROME2", 0, 1, 1, 8, 8, 7, 0, 1, 0, 128, 128, 128, 256, [128]⟩ 0
      = some
        (specGrayscaleValue
          ⟨1, "MONOCHROME2", 0, 1, 1, 8, 8, 7, 0, 1, 0, 128, 128, 128, 256, [128]⟩ 0,
        specGrayscaleValue
          ⟨1, "MONOCHROME2", 0, 1, 1, 8, 8, 7, 0, 1, 0, 128, 128, 128, 256, [128]⟩ 0,
        specGrayscaleValue
          ⟨1, "MONOCHROME2", 0, 1, 1, 8, 8, 7, 0, 1, 0, 128, 128, 128, 256, [128]⟩ 0,
        255) :=
  ⟨Or.inr rfl, by decide,
   grayscale_render_pixel_formula
     ⟨1, "MONOCHROME2", 0, 1, 1, 8, 8, 7, 0, 1, 0, 128, 128, 128, 256, [128]⟩ 0
     (Or.inr rfl) (by decide)⟩

/-- C6: whenever no explicit window metadata is supplied, the assembler
derives windowWidth = voiMax - voiMin and windowCenter = (voiMax + voiMin)/2
from the rescaled min/max, so center - width/2 equals the rescaled minimum
and center + width/2 equals the rescaled maximum, exactly over the
rationals. -/
theorem derived_window_properties (rows columns : Nat)
    (bitsAllocatedOpt bitsStoredOpt pixelRepresentationOpt highBitOpt samplesPerPixelOpt planarConfigurationOpt : Option Nat)
    (photometricInterpretationOpt : Option String)
    (rescaleInterceptOpt rescaleSlopeOpt : Option Rat)
    (decodedBuffer : List Nat) (decodedPhotometricInterpretation : String)
    (f : ImageFrameType)
    (h : createImageFrame rows columns bitsAllocatedOpt bitsStoredOpt pixelRepresentationOpt
      highBitOpt samplesPerPixelOpt planarConfigurationOpt photometricInterpretationOpt
      rescaleInterceptOpt rescaleSlopeOpt none none decodedBuffer
      decodedPhotometricInterpretation = Except.ok f) :
    f.windowWidth = ((f.maxPixelValue : Rat) * f.rescaleSlope + f.rescaleIntercept)
        - ((f.minPixelValue : Rat) * f.rescaleSlope + f.rescaleIntercept) ∧
    f.windowCenter = (((f.maxPixelValue : Rat) * f.rescaleSlope + f.rescaleIntercept)
        + ((f.minPixelValue : Rat) * f.rescaleSlope + f.rescaleIntercept)) / 2 ∧
    f.windowCenter - f.windowWidth / 2
      = (f.minPixelValue : Rat) * f.rescaleSlope + f.rescaleIntercept ∧
    f.windowCenter + f.windowWidth / 2
      = (f.maxPixelValue : Rat) * f.rescaleSlope + f.rescaleIntercept := by
  have inv := createImageFrame_ok_inv rows columns bitsAllocatedOpt bitsStoredOpt
    pixelRepresentationOpt highBitOpt samplesPerPixelOpt planarConfigurationOpt
    photometricInterpretationOpt rescaleInterceptOpt rescaleSlopeOpt none none
    decodedBuffer decodedPhotometricInterpretation f h
  obtain ⟨-, -, -, -, -, -, -, -, -, -, -, -, -, hw⟩ := inv
  have hw2 := hw (Or.inl rfl)
  refine ⟨hw2.1, hw2.2, ?_, ?_⟩
  · rw [hw2.1, hw2.2]; ring
  · rw [hw2.1, hw2.2]; ring

/-- Witness for C6: a constant 1-by-1 8-bit frame, no explicit window, no
explicit rescale (defaults slope 1, intercept 0): the derived window is
center 5, width 0 and both identities hold. -/
theorem derived_window_properties_witness :
    createImageFrame 1 1 (some 8) none none none none none none none none none none [5]
        "MONOCHROME2"
      = Except.ok (⟨1, "MONOCHROME2", 0, 1, 1, 8, 8, 7, 0, 1, 0, 5, 5, 5, 0, [5]⟩ :
          ImageFrameType) ∧
    ((⟨1, "MONOCHROME2", 0, 1, 1, 8, 8, 7, 0, 1, 0, 5, 5, 5, 0, [5]⟩ :
        ImageFrameType).windowWidth
      = (((⟨1, "MONOCHROME2", 0, 1, 1, 8, 8, 7, 0, 1, 0, 5, 5, 5, 0, [5]⟩ :
          ImageFrameType).maxPixelValue : Rat)
            * (⟨1, "MONOCHROME2", 0, 1, 1, 8, 8, 7, 0, 1, 0, 5, 5, 5, 0, [5]⟩ :
          ImageFrameType).rescaleSlope
          + (⟨1, "MONOCHROME2", 0, 1, 1, 8, 8, 7, 0, 1, 0, 5, 5, 5, 0, [5]⟩ :
          ImageFrameType).rescaleIntercept)
        - (((⟨1, "MONOCHROME2", 0, 1, 1, 8, 8, 7, 0, 1, 0, 5, 5, 5, 0, [5]⟩ :
          ImageFrameType).minPixelValue : Rat)
            * (⟨1, "MONOCHROME2", 0, 1, 1, 8, 8, 7, 0, 1, 0, 5, 5, 5, 0, [5]⟩ :
          ImageFrameType).rescaleSlope
          + (⟨1, "MONOCHROME2", 0, 1, 1, 8, 8, 7, 0, 1, 0, 5, 5, 5, 0, [5]⟩ :
          ImageFrameType).rescaleIntercept) ∧
      (⟨1, "MONOCHROME2", 0, 1, 1, 8, 8, 7, 0, 1, 0, 5, 5, 5, 0, [5]⟩ :
        ImageFrameType).windowCenter
      = ((((⟨1, "MONOCHROME2", 0, 1, 1, 8, 8, 7, 0, 1, 0, 5, 5, 5, 0, [5]⟩ :
          ImageFrameType).maxPixelValue : Rat)
            * (⟨1, "MONOCHROME2", 0, 1, 1, 8, 8, 7, 0, 1, 0, 5, 5, 5, 0, [5]⟩ :
          ImageFrameType).rescaleSlope
          + (⟨1, "MONOCHROME2", 0, 1, 1, 8, 8, 7, 0, 1, 0, 5, 5, 5, 0, [5]⟩ :
          ImageFrameType).rescaleIntercept)
        + (((⟨1, "MONOCHROME2", 0, 1, 1, 8, 8, 7, 0, 1, 0, 5, 5, 5, 0, [5]⟩ :
          ImageFrameType).minPixelValue : Rat)
            * (⟨1, "MONOCHROME2", 0, 1, 1, 8, 8, 7, 0, 1, 0, 5, 5, 5, 0, [5]⟩ :
          ImageFrameType).rescaleSlope
          + (⟨1, "MONOCHROME2", 0, 1, 1, 8, 8, 7, 0, 1, 0, 5, 5, 5, 0, [5]⟩ :
          ImageFrameType).rescaleIntercept)) / 2 ∧
      (⟨1, "MONOCHROME2", 0, 1, 1, 8, 8, 7, 0, 1, 0, 5, 5, 5, 0, [5]⟩ :
          ImageFrameType).windowCenter
          - (⟨1, "MONOCHROME2", 0, 1, 1, 8, 8, 7, 0, 1, 0, 5, 5, 5, 0, [5]⟩ :
          ImageFrameType).windowWidth / 2
        = ((⟨1, "MONOCHROME2", 0, 1, 1, 8, 8, 7, 0, 1, 0, 5, 5, 5, 0, [5]⟩ :
          ImageFrameType).minPixelValue : Rat)
            * (⟨1, "MONOCHROME2", 0, 1, 1, 8, 8, 7, 0, 1, 0, 5, 5, 5, 0, [5]⟩ :
          ImageFrameType).rescaleSlope
          + (⟨1, "MONOCHROME2", 0, 1, 1, 8, 8, 7, 0, 1, 0, 5, 5, 5, 0, [5]⟩ :
          ImageFrameType).rescaleIntercept ∧
      (⟨1, "MONOCHROME2", 0, 1, 1, 8, 8, 7, 0, 1, 0, 5, 5, 5, 0, [5]⟩ :
          ImageFrameType).windowCenter
          + (⟨1, "MONOCHROME2", 0, 1, 1, 8, 8, 7, 0, 1, 0, 5, 5, 5, 0, [5]⟩ :
          ImageFrameType).windowWidth / 2
        = ((⟨1, "MONOCHROME2", 0, 1, 1, 8, 8, 7, 0, 1, 0, 5, 5, 5, 0, [5]⟩ :
          ImageFrameType).maxPixelValue : Rat)
            * (⟨1, "MONOCHROME2", 0, 1, 1, 8, 8, 7, 0, 1, 0, 5, 5, 5, 0, [5]⟩ :
          ImageFrameType).rescaleSlope
          + (⟨1, "MONOCHROME2", 0, 1, 1, 8, 8, 7, 0, 1, 0, 5, 5, 5, 0, [5]⟩ :
          ImageFrameType).rescaleIntercept) := by
  have hcomp : createImageFrame 1 1 (some 8) none none none none none none none none none none
      [5] "MONOCHROME2"
      = Except.ok (⟨1, "MONOCHROME2", 0, 1, 1, 8, 8, 7, 0, 1, 0, 5, 5, 5, 0, [5]⟩ :
          ImageFrameType) := by
    norm_num [createImageFrame, jsOrNat, jsOrRat, toTypedPixelData, toUint16List,
      calculateMinMaxPixelValues, minMaxStep, ImageFrameType.mk.injEq]
    exact fun h => h.symm
  exact ⟨hcomp, derived_window_properties 1 1 (some 8) none none none none none none none none
    [5] "MONOCHROME2" ⟨1, "MONOCHROME2", 0, 1, 1, 8, 8, 7, 0, 1, 0, 5, 5, 5, 0, [5]⟩ hcomp⟩

/-- C4 counterexample: for a constant 1-by-1 8-bit frame with no explicit
window metadata (sample 5, default slope 1 and intercept 0), the assembler
resolves windowWidth to 0, so the claimed invariant windowWidth > 0 fails on
a successfully assembled frame. -/
theorem image_frame_zero_width_counterexample :
    (createImageFrame 1 1 (some 8) none none none none none none none none none none [5]
      "MONOCHROME2").toOption.map ImageFrameType.windowWidth = some 0 ∧
    ¬ ((0 : Rat) > 0) := by
  have hcomp : createImageFrame 1 1 (some 8) none none none none none none none none none none
      [5] "MONOCHROME2"
      = Except.ok (⟨1, "MONOCHROME2", 0, 1, 1, 8, 8, 7, 0, 1, 0, 5, 5, 5, 0, [5]⟩ :
          ImageFrameType) := by
    norm_num [createImageFrame, jsOrNat, jsOrRat, toTypedPixelData, toUint16List,
      calculateMinMaxPixelValues, minMaxStep, ImageFrameType.mk.injEq]
    exact fun h => h.symm
  constructor
  · rw [hcomp]
    rfl
  · norm_num

/-- C4 (amended): every ImageFrame the assembler produces has bitsAllocated
8 or 16; its pixelData length equals rows*columns*samplesPerPixel whenever
the decoded buffer has the byte length the typed-view mode expects (one byte
per sample for the 8-bit passthrough, two bytes per sample otherwise); and
whenever the window is derived from min/max (the code derives when the
explicit center or the explicit width is missing) and the resolved slope is
nonnegative, windowWidth is nonnegative -- it is 0 (not > 0) for a constant
image, so the claim's strict positivity is weakened to ≥ 0, and explicit
window values are taken as supplied, unvalidated. -/
theorem image_frame_invariants (rows columns : Nat)
    (bitsAllocatedOpt bitsStoredOpt pixelRepresentationOpt highBitOpt samplesPerPixelOpt planarConfigurationOpt : Option Nat)
    (photometricInterpretationOpt : Option String)
    (rescaleInterceptOpt rescaleSlopeOpt windowCenterOpt windowWidthOpt : Option Rat)
    (decodedBuffer : List Nat) (decodedPhotometricInterpretation : String)
    (f : ImageFrameType)
    (h : createImageFrame rows columns bitsAllocatedOpt bitsStoredOpt pixelRepresentationOpt
      highBitOpt samplesPerPixelOpt planarConfigurationOpt photometricInterpretationOpt
      rescaleInterceptOpt rescaleSlopeOpt windowCenterOpt windowWidthOpt
      decodedBuffer decodedPhotometricInterpretation = Except.ok f) :
    (f.bitsAllocated = 8 ∨ f.bitsAllocated = 16) ∧
    (decodedBuffer.length
        = (if f.bitsStored = 8 ∧ f.highBit = 7 ∧ f.bitsAllocated = 8
          then f.rows * f.columns * f.samplesPerPixel
          else 2 * (f.rows * f.columns * f.samplesPerPixel)) →
      f.pixelData.length = f.rows * f.columns * f.samplesPerPixel) ∧
    ((windowCenterOpt = none ∨ windowWidthOpt = none) → 0 ≤ f.rescaleSlope →
      0 ≤ f.windowWidth) := by
  have inv := createImageFrame_ok_inv rows columns bitsAllocatedOpt bitsStoredOpt
    pixelRepresentationOpt highBitOpt samplesPerPixelOpt planarConfigurationOpt
    photometricInterpretationOpt rescaleInterceptOpt rescaleSlopeOpt windowCenterOpt
    windowWidthOpt decodedBuffer decodedPhotometricInterpretation f h
  obtain ⟨-, -, -, -, hba, -, -, -, -, -, htp, hmin, hmax, hw⟩ := inv
  refine ⟨hba, ?_, ?_⟩
  · intro hbuf
    have hlen := toTypedPixelData_ok_length decodedBuffer f.pixelRepresentation f.bitsAllocated
      f.bitsStored f.highBit f.pixelData htp
    by_cases hmode : f.bitsStored = 8 ∧ f.highBit = 7 ∧ f.bitsAllocated = 8
    · rw [if_pos hmode] at hlen
      rw [if_pos hmode] at hbuf
      rw [hlen, hbuf]
    · rw [if_neg hmode] at hlen
      rw [if_neg hmode] at hbuf
      rw [hlen, hbuf]
      omega
  · intro hwderived hslope
    have hw2 := hw hwderived
    have hle : (f.minPixelValue : Rat) ≤ (f.maxPixelValue : Rat) := by
      rw [hmin, hmax]
      exact_mod_cast minMax_fst_le_snd f.pixelData
    rw [hw2.1]
    have hfact : ((f.maxPixelValue : Rat) * f.rescaleSlope + f.rescaleIntercept)
        - ((f.minPixelValue : Rat) * f.rescaleSlope + f.rescaleIntercept)
        = ((f.maxPixelValue : Rat) - (f.minPixelValue : Rat)) * f.rescaleSlope := by ring
    rw [hfact]
    exact mul_nonneg (sub_nonneg.mpr hle) hslope

/-- Witness for C4's amended theorem at the constant 1-by-1 8-bit frame. -/
theorem image_frame_invariants_witness :
    createImageFrame 1 1 (some 8) none none none none none none none none none none [5]
        "MONOCHROME2"
      = Except.ok (⟨1, "MONOCHROME2", 0, 1, 1, 8, 8, 7, 0, 1, 0, 5, 5, 5, 0, [5]⟩ :
          ImageFrameType) ∧
    (((⟨1, "MONOCHROME2", 0, 1, 1, 8, 8, 7, 0, 1, 0, 5, 5, 5, 0, [5]⟩ :
          ImageFrameType).bitsAllocated = 8
      ∨ (⟨1, "MONOCHROME2", 0, 1, 1, 8, 8, 7, 0, 1, 0, 5, 5, 5, 0, [5]⟩ :
          ImageFrameType).bitsAllocated = 16) ∧
    (([5] : List Nat).length
        = (if (⟨1, "MONOCHROME2", 0, 1, 1, 8, 8, 7, 0, 1, 0, 5, 5, 5, 0, [5]⟩ :
              ImageFrameType).bitsStored = 8
            ∧ (⟨1, "MONOCHROME2", 0, 1, 1, 8, 8, 7, 0, 1, 0, 5, 5, 5, 0, [5]⟩ :
              ImageFrameType).highBit = 7
            ∧ (⟨1, "MONOCHROME2", 0, 1, 1, 8, 8, 7, 0, 1, 0, 5, 5, 5, 0, [5]⟩ :
              ImageFrameType).bitsAllocated = 8
          then (⟨1, "MONOCHROME2", 0, 1, 1, 8, 8, 7, 0, 1, 0, 5, 5, 5, 0, [5]⟩ :
              ImageFrameType).rows
            * (⟨1, "MONOCHROME2", 0, 1, 1, 8, 8, 7, 0, 1, 0, 5, 5, 5, 0, [5]⟩ :
              ImageFrameType).columns
            * (⟨1, "MONOCHROME2", 0, 1, 1, 8, 8, 7, 0, 1, 0, 5, 5, 5, 0, [5]⟩ :
              ImageFrameType).samplesPerPixel
          else 2 * ((⟨1, "MONOCHROME2", 0, 1, 1, 8, 8, 7, 0, 1, 0, 5, 5, 5, 0, [5]⟩ :
              ImageFrameType).rows
            * (⟨1, "MONOCHROME2", 0, 1, 1, 8, 8, 7, 0, 1, 0, 5, 5, 5, 0, [5]⟩ :
              ImageFrameType).columns
            * (⟨1, "MONOCHROME2", 0, 1, 1, 8, 8, 7, 0, 1, 0, 5, 5, 5, 0, [5]⟩ :
              ImageFrameType).samplesPerPixel)) →
      (⟨1, "MONOCHROME2", 0, 1, 1, 8, 8, 7, 0, 1, 0, 5, 5, 5, 0, [5]⟩ :
          ImageFrameType).pixelData.length
        = (⟨1, "MONOCHROME2", 0, 1, 1, 8, 8, 7, 0, 1, 0, 5, 5, 5, 0, [5]⟩ :
            ImageFrameType).rows
          * (⟨1, "MONOCHROME2", 0, 1, 1, 8, 8, 7, 0, 1, 0, 5, 5, 5, 0, [5]⟩ :
            ImageFrameType).columns
          * (⟨1, "MONOCHROME2", 0, 1, 1, 8, 8, 7, 0, 1, 0, 5, 5, 5, 0, [5]⟩ :
            ImageFrameType).samplesPerPixel) ∧
    (((none : Option Rat) = none ∨ (none : Option Rat) = none) →
      0 ≤ (⟨1, "MONOCHROME2", 0, 1, 1, 8, 8, 7, 0, 1, 0, 5, 5, 5, 0, [5]⟩ :
          ImageFrameType).rescaleSlope →
      0 ≤ (⟨1, "MONOCHROME2", 0, 1, 1, 8, 8, 7, 0, 1, 0, 5, 5, 5, 0, [5]⟩ :
          ImageFrameType).windowWidth)) := by
  have hcomp : createImageFrame 1 1 (some 8) none none none none none none none none none none
      [5] "MONOCHROME2"
      = Except.ok (⟨1, "MONOCHROME2", 0, 1, 1, 8, 8, 7, 0, 1, 0, 5, 5, 5, 0, [5]⟩ :
          ImageFrameType) := by
    norm_num [createImageFrame, jsOrNat, jsOrRat, toTypedPixelData, toUint16List,
      calculateMinMaxPixelValues, minMaxStep, ImageFrameType.mk.injEq]
    exact fun h => h.symm
  exact ⟨hcomp, image_frame_invariants 1 1 (some 8) none none none none none none none none
    none none [5] "MONOCHROME2" ⟨1, "MONOCHROME2", 0, 1, 1, 8, 8, 7, 0, 1, 0, 5, 5, 5, 0, [5]⟩
    hcomp⟩

/-- C5 counterexample: a cache constructed with capacity 0 exceeds its
capacity: on `set`, the eviction branch finds no first key to delete (the
map is empty), so the entry is stored anyway and the size becomes 1 > 0. -/
theorem cache_capacity_zero_counterexample :
    (applyOps (emptyCache Nat 0) [CacheOp.setOp ("x") 1]).entries.length = 1 ∧
    ¬ ((applyOps (emptyCache Nat 0) [CacheOp.setOp ("x") 1]).entries.length
      ≤ (emptyCache Nat 0).max) := by
  constructor
  · rfl
  · decide

/-- C5 (amended): for every cache of capacity N ≥ 1: the size never exceeds
N under any operation sequence; get promotes the found key to
most-recently-used, preserving every other key's association; set on an
existing key replaces the value and promotes, preserving other keys; set on
a full cache with a fresh key first evicts the least-recently-used (front)
entry; and inserting distinct keys from empty retains exactly the last N of
them, so capacity+1 distinct insertions evict exactly the
least-recently-used key.  (For capacity 0 the size bound fails, so the
claim's arbitrary-capacity form is restricted to N ≥ 1.) -/
theorem cache_lru_properties (V : Type) (N : Nat) (hN : 1 ≤ N) :
    (∀ ops : List (CacheOp V), (applyOps (emptyCache V N) ops).entries.length ≤ N) ∧
    (∀ (c : Cache V) (k : String) (v : V), cacheFind k c.entries = some v →
      (Cache.get c k).1 = some v ∧
      (Cache.get c k).2.entries.getLast? = some (k, v) ∧
      ∀ k2 : String, k2 ≠ k →
        cacheFind k2 (Cache.get c k).2.entries = cacheFind k2 c.entries) ∧
    (∀ (c : Cache V) (k : String) (v w : V), cacheFind k c.entries = some w →
      cacheFind k (Cache.set c k v).entries = some v ∧
      (Cache.set c k v).entries.getLast? = some (k, v) ∧
      ∀ k2 : String, k2 ≠ k →
        cacheFind k2 (Cache.set c k v).entries = cacheFind k2 c.entries) ∧
    (∀ (M : Nat) (e : String × V) (t : List (String × V)) (k : String) (v : V),
      ((e :: t).map Prod.fst).Nodup → cacheFind k (e :: t) = none → (e :: t).length = M →
      (Cache.set ⟨M, e :: t⟩ k v).entries = t ++ [(k, v)]) ∧
    (∀ pairs : List (String × V), (pairs.map Prod.fst).Nodup →
      (applyOps (emptyCache V N) (pairs.map (fun p => CacheOp.setOp p.1 p.2))).entries
        = pairs.drop (pairs.length - N)) := by
  refine ⟨?_, ?_, ?_, ?_, ?_⟩
  · intro ops
    exact applyOps_length_le N hN ops (emptyCache V N) rfl (Nat.zero_le N)
  · intro c k v hf
    rw [cacheGet_found c k v hf]
    refine ⟨rfl, ?_, ?_⟩
    · exact List.getLast?_concat _
    · intro k2 hk2
      rw [cacheFind_append, removeKey_find_ne k k2 hk2]
      cases hf2 : cacheFind k2 c.entries with
      | some v2 => rfl
      | none =>
        have hkk : ¬ k = k2 := fun hc => hk2 hc.symm
        simp [cacheFind, hkk]
  · intro c k v w hf
    have hset : (Cache.set c k v).entries = removeKey k c.entries ++ [(k, v)] := by
      unfold Cache.set
      simp only [hf, Option.isSome_some, if_pos]
    rw [hset]
    refine ⟨?_, ?_, ?_⟩
    · rw [cacheFind_append, removeKey_find_self]
      simp [cacheFind]
    · exact List.getLast?_concat _
    · intro k2 hk2
      rw [cacheFind_append, removeKey_find_ne k k2 hk2]
      cases hf2 : cacheFind k2 c.entries with
      | some v2 => rfl
      | none =>
        have hkk : ¬ k = k2 := fun hc => hk2 hc.symm
        simp [cacheFind, hkk]
  · intro M e t k v h1 h2 h3
    exact cacheSet_full_evicts M e t k v h1 h2 h3
  · intro pairs hnd
    have haux := applyOps_sets_drop N hN pairs (emptyCache V N) rfl (Nat.zero_le N)
      (by simpa [emptyCache] using hnd)
    simpa [emptyCache] using haux

/-- Witness for C5's amended theorem at capacity 1, value type Nat. -/
theorem cache_lru_properties_witness :
    1 ≤ 1 ∧
    ((∀ ops : List (CacheOp Nat), (applyOps (emptyCache Nat 1) ops).entries.length ≤ 1) ∧
     (∀ (c : Cache Nat) (k : String) (v : Nat), cacheFind k c.entries = some v →
       (Cache.get c k).1 = some v ∧
       (Cache.get c k).2.entries.getLast? = some (k, v) ∧
       ∀ k2 : String, k2 ≠ k →
         cacheFind k2 (Cache.get c k).2.entries = cacheFind k2 c.entries) ∧
     (∀ (c : Cache Nat) (k : String) (v w : Nat), cacheFind k c.entries = some w →
       cacheFind k (Cache.set c k v).entries = some v ∧
       (Cache.set c k v).entries.getLast? = some (k, v) ∧
       ∀ k2 : String, k2 ≠ k →
         cacheFind k2 (Cache.set c k v).entries = cacheFind k2 c.entries) ∧
     (∀ (M : Nat) (e : String × Nat) (t : List (String × Nat)) (k : String) (v : Nat),
       ((e :: t).map Prod.fst).Nodup → cacheFind k (e :: t) = none → (e :: t).length = M →
       (Cache.set ⟨M, e :: t⟩ k v).entries = t ++ [(k, v)]) ∧
     (∀ pairs : List (String × Nat), (pairs.map Prod.fst).Nodup →
       (applyOps (emptyCache Nat 1) (pairs.map (fun p => CacheOp.setOp p.1 p.2))).entries
         = pairs.drop (pairs.length - 1))) :=
  ⟨le_refl 1, cache_lru_properties Nat 1 (le_refl 1)⟩

/-- A render with a usable cache key and a frame-cache hit returns the
cached frame without running the decode path. -/
theorem renderModel_hit (assemble : List Nat → V) (c : Cache V) (k : String)
    (bytes : List Nat) (hk : ¬ k = "") (v : V) (hf : cacheFind k c.entries = some v) :
    renderModel assemble c (some k) bytes = ((Cache.get c k).2, v, false) := by
  simp only [renderModel, if_neg hk, cacheGet_found c k v hf]

/-- A render with a usable cache key and a frame-cache miss runs the decode
path and stores the assembled frame under the key. -/
theorem renderModel_miss (assemble : List Nat → V) (c : Cache V) (k : String)
    (bytes : List Nat) (hk : ¬ k = "") (hf : cacheFind k c.entries = none) :
    renderModel assemble c (some k) bytes
      = (Cache.set c k (assemble bytes), assemble bytes, true) := by
  have hg : Cache.get c k = (none, c) := by
    unfold Cache.get
    rw [hf]
  simp only [renderModel, if_neg hk, hg]

/-- C8: rendering twice with the same non-empty cacheKey and identical
container bytes: the second call does not invoke the parse/extract/decode
path (its decode flag is false) and hands the pipeline the same frame the
first call produced, obtained from the frame cache. -/
theorem render_second_call_skips_decode (V : Type) (assemble : List Nat → V)
    (c0 : Cache V) (k : String) (bytes : List Nat) (hk : ¬ k = "") :
    (renderModel assemble (renderModel assemble c0 (some k) bytes).1 (some k) bytes).2.2
      = false ∧
    (renderModel assemble (renderModel assemble c0 (some k) bytes).1 (some k) bytes).2.1
      = (renderModel assemble c0 (some k) bytes).2.1 := by
  cases hf : cacheFind k c0.entries with
  | some v =>
    rw [renderModel_hit assemble c0 k bytes hk v hf]
    dsimp only
    rw [renderModel_hit assemble (Cache.get c0 k).2 k bytes hk v
      (cacheGet_find_after c0 k v hf)]
    exact ⟨rfl, rfl⟩
  | none =>
    rw [renderModel_miss assemble c0 k bytes hk hf]
    dsimp only
    rw [renderModel_hit assemble (Cache.set c0 k (assemble bytes)) k bytes hk (assemble bytes)
      (cacheSet_find_self c0 k (assemble bytes))]
    exact ⟨rfl, rfl⟩

/-- Witness for C8: two renders with key a on an empty frame cache of
capacity 3 (the source's frame-cache capacity). -/
theorem render_second_call_skips_decode_witness :
    ¬ ("a" : String) = "" ∧
    ((renderModel (fun _ => (42 : Nat)) (renderModel (fun _ => (42 : Nat)) (emptyCache Nat 3)
        (some ("a")) []).1 (some ("a")) []).2.2 = false ∧
     (renderModel (fun _ => (42 : Nat)) (renderModel (fun _ => (42 : Nat)) (emptyCache Nat 3)
        (some ("a")) []).1 (some ("a")) []).2.1
      = (renderModel (fun _ => (42 : Nat)) (emptyCache Nat 3) (some ("a")) []).2.1) :=
  ⟨by decide,
   render_second_call_skips_decode Nat (fun _ => (42 : Nat)) (emptyCache Nat 3) ("a") []
     (by decide)⟩
